import Mathlib

/-!
# Builtin-actors bundle loader (`node/bundle/bundle.go`)

A shallow embedding of `LoadBundleFromFile`, `LoadBundle` and `LoadBundles`.

The Go functions talk to collaborators that live outside the file: the
blockstore (`bs.Has`), the CAR decoder (`car.LoadCar`), the manifest registry
(`actors.GetManifest`), the release catalogue (`build.BuiltinActorReleases`,
`build.NetworkBundle`, `build.GetEmbeddedBuiltinActorsBundle`), the process
environment (`os.Getenv`) and the file system (`os.Open`).  They are the fields
of `Env`.  The blockstore state is threaded explicitly and every call to a
collaborator is appended to a trace, so that statements of the form
"no lookup happens" are statements about the trace.
-/

namespace Bundle

/-! ## Data model -/

/-- Content identifier (`cid.Cid`): a wrapper around the encoded string form,
compared byte for byte. -/
structure Cid where
  str : String
  deriving DecidableEq, Repr

/-- The zero value `cid.Undef`. -/
def Cid.Undef : Cid := ⟨""⟩

/-- Actor version (`actors.Version`, a Go `int`); versions are only compared
and printed, never computed with. -/
abbrev Version := Int

/-- Modelled from the spec: the constant `actors.Version8`, the minimum version
that has a bundle ("minimum version 8"; "No bundles before version 8"). -/
def Version8 : Version := 8

/-- Contents of a byte stream (`io.Reader`, `[]byte`). -/
abbrev Bytes := List Nat

/-- Header returned by the CAR decoder (`car.CarHeader`). -/
structure CarHeader where
  Roots : List Cid
  Version : Nat
  deriving DecidableEq, Repr

/-- Modelled from the spec: a release-catalogue entry, of which this file reads
only `Path`, the map from network name to local path (a missing key reads as
the empty string, as for a Go map). -/
structure BundleEntry where
  Path : String → String

/-- Errors built by the three functions, one constructor per `xerrors.Errorf`
call site; wrapped causes are kept as their message. -/
inductive Error where
  /-- Message "error opening bundle %q for builtin-actors: %w" -/
  | openBundle (path : String) (cause : String)
  /-- Message "error loading builtin actors bundle: %w" -/
  | loadFailed (cause : String)
  /-- Message "expected one root when loading actors bundle, got %d" -/
  | rootCount (n : Nat)
  /-- Message "unknown actor version v%d" -/
  | unknownActorVersion (av : Version)
  /-- Message "blockstore error when loading manifest %s: %w" -/
  | blockstore (manifestCid : Cid) (cause : String)
  /-- Message "unknown actors version %d" -/
  | unknownActorsVersion (av : Version)
  /-- Message "bundle for actors version v%d not found" -/
  | bundleNotFound (av : Version)
  /-- Message "expected manifest for actors version %d does not match actual: %s != %s" -/
  | manifestMismatch (av : Version) (manifestCid : Cid) (root : Cid)
  deriving DecidableEq, Repr

/-- One entry of the call trace: a call made to a collaborator. -/
inductive Event where
  /-- Call `actors.GetManifest(av)` -/
  | getManifest (av : Version)
  /-- Call `bs.Has(ctx, c)` -/
  | has (c : Cid)
  /-- Call `build.BuiltinActorReleases[av]` -/
  | releases (av : Version)
  /-- Call `os.Getenv(name)` -/
  | getenv (name : String)
  /-- Call `os.Open(path)` -/
  | openFile (path : String)
  /-- Call `build.GetEmbeddedBuiltinActorsBundle(av)` -/
  | embedded (av : Version)
  /-- Call `car.LoadCar(ctx, bs, r)` -/
  | loadCar (r : Bytes)
  deriving DecidableEq, Repr

/-- The collaborators of the loader, over a blockstore state `σ`. -/
structure Env (σ : Type) where
  /-- The variable `build.NetworkBundle` -/
  NetworkBundle : String
  /-- The function `actors.GetManifest`: the expected root, when registered -/
  GetManifest : Version → Option Cid
  /-- The method `bs.Has` -/
  Has : σ → Cid → Except String Bool
  /-- The map read `build.BuiltinActorReleases[av]` with its `ok` flag -/
  BuiltinActorReleases : Version → Option BundleEntry
  /-- The function `os.Getenv`: the empty string when unset -/
  Getenv : String → String
  /-- The function `os.Open` followed by reading the file -/
  Open : String → Except String Bytes
  /-- The function `build.GetEmbeddedBuiltinActorsBundle` -/
  GetEmbeddedBuiltinActorsBundle : Version → Option Bytes
  /-- The function `car.LoadCar`: writes blocks into the store and returns the header -/
  LoadCar : σ → Bytes → σ × Except String CarHeader

/-- Blockstore state together with the trace of collaborator calls, oldest
first. -/
structure World (σ : Type) where
  store : σ
  trace : List Event
  deriving DecidableEq, Repr

/-- Record a call. -/
def World.log {σ : Type} (w : World σ) (e : Event) : World σ :=
  { w with trace := w.trace ++ [e] }

/-! ## The three functions -/

/-- The function `LoadBundle` (lines 31-41). -/
def LoadBundle {σ : Type} (E : Env σ) (w : World σ) (r : Bytes) :
    World σ × Cid × Option Error :=
  let w := w.log (.loadCar r)
  match E.LoadCar w.store r with
  | (s, .error err) => ({ w with store := s }, Cid.Undef, some (.loadFailed err))
  | (s, .ok hdr) =>
    if h : hdr.Roots.length ≠ 1 then
      ({ w with store := s }, Cid.Undef, some (.rootCount hdr.Roots.length))
    else
      ({ w with store := s }, hdr.Roots.get ⟨0, by omega⟩, none)

/-- The function `LoadBundleFromFile` (lines 21-29). -/
def LoadBundleFromFile {σ : Type} (E : Env σ) (w : World σ) (path : String) :
    World σ × Cid × Option Error :=
  let w := w.log (.openFile path)
  match E.Open path with
  | .error err => (w, Cid.Undef, some (.openBundle path err))
  | .ok f => LoadBundle E w f

/-- Name of the override variable, `fmt.Sprintf("LOTUS_BUILTIN_ACTORS_V%d_BUNDLE", av)`
(line 72). -/
def envvar (av : Version) : String :=
  "LOTUS_BUILTIN_ACTORS_V" ++ toString av ++ "_BUNDLE"

/-- The `if / else if / else` chain of `LoadBundles` that assigns `root, err`
(lines 72-85), for the catalogue entry `bd`. -/
def loadSource {σ : Type} (E : Env σ) (w : World σ) (av : Version) (bd : BundleEntry) :
    World σ × Cid × Option Error :=
  let w := w.log (.getenv (envvar av))
  if E.Getenv (envvar av) ≠ "" then
    LoadBundleFromFile E w (E.Getenv (envvar av))
  else if bd.Path E.NetworkBundle ≠ "" then
    LoadBundleFromFile E w (bd.Path E.NetworkBundle)
  else
    let w := w.log (.embedded av)
    match E.GetEmbeddedBuiltinActorsBundle av with
    | some embedded => LoadBundle E w embedded
    | none => (w, Cid.Undef, some (.bundleNotFound av))

/-- The two checks that follow the load (lines 87-93). -/
def verifyRoot {σ : Type} (av : Version) (manifestCid : Cid) :
    World σ × Cid × Option Error → World σ × Option Error
  | (w, _, some err) => (w, some err)
  | (w, root, none) =>
    if root ≠ manifestCid then (w, some (.manifestMismatch av manifestCid root))
    else (w, none)

/-- Body of the `for` loop of `LoadBundles` for one version (lines 49-94);
`none` stands for both `continue` and reaching the end of the body. -/
def loadVersion {σ : Type} (E : Env σ) (w : World σ) (av : Version) :
    World σ × Option Error :=
  if av < Version8 then (w, none)
  else
    let w := w.log (.getManifest av)
    match E.GetManifest av with
    | none => (w, some (.unknownActorVersion av))
    | some manifestCid =>
      let w := w.log (.has manifestCid)
      match E.Has w.store manifestCid with
      | .error err => (w, some (.blockstore manifestCid err))
      | .ok true => (w, none)
      | .ok false =>
        let w := w.log (.releases av)
        match E.BuiltinActorReleases av with
        | none => (w, some (.unknownActorsVersion av))
        | some bd => verifyRoot av manifestCid (loadSource E w av bd)

/-- The function `LoadBundles` (lines 45-98): the loop over `versions`, left to right,
returning at the first error. -/
def LoadBundles {σ : Type} (E : Env σ) (w : World σ) : List Version → World σ × Option Error
  | [] => (w, none)
  | av :: versions =>
    match loadVersion E w av with
    | (w1, some err) => (w1, some err)
    | (w1, none) => LoadBundles E w1 versions

/-! ## Vocabulary for the statements -/

/-- Carry on with the remaining `versions` after the loop body produced `r`:
stop on an error, continue otherwise.  This is the `match` of `LoadBundles`. -/
def resume {σ : Type} (E : Env σ) (r : World σ × Option Error) (versions : List Version) :
    World σ × Option Error :=
  match r with
  | (w1, some err) => (w1, some err)
  | (w1, none) => LoadBundles E w1 versions

/-- A candidate source of the chain at lines 77-85: a local path (override or
catalogue) or the embedded payload. -/
inductive Source where
  | file (path : String)
  | embedded (data : Bytes)
  deriving DecidableEq, Repr

/-- The branch taken by the chain at lines 77-85, conditions only: the
override path if non-empty, else the catalogue path for the network if
non-empty, else the embedded payload if there is one. -/
def selectSource {σ : Type} (E : Env σ) (av : Version) (bd : BundleEntry) : Option Source :=
  if E.Getenv (envvar av) ≠ "" then some (.file (E.Getenv (envvar av)))
  else if bd.Path E.NetworkBundle ≠ "" then some (.file (bd.Path E.NetworkBundle))
  else (E.GetEmbeddedBuiltinActorsBundle av).map .embedded

/-- Calls made by the chain before the decoder runs, for the chosen source. -/
def Source.lookups (av : Version) : Source → List Event
  | .file path => [.getenv (envvar av), .openFile path]
  | .embedded _ => [.getenv (envvar av), .embedded av]

/-- The byte stream a source yields: the opened file, or the payload. -/
def Source.read {σ : Type} (E : Env σ) : Source → Except String Bytes
  | .file path => E.Open path
  | .embedded data => .ok data

/-- Calls that touch a source of bundle bytes or the catalogue: everything
except the manifest lookup and the store query. -/
def Event.isSourceCall : Event → Bool
  | .getManifest _ => false
  | .has _ => false
  | _ => true

/-- The decoder only adds blocks: a key the store has is still there after a
decode. -/
def DecoderOnlyAdds {σ : Type} (E : Env σ) : Prop :=
  ∀ s r c, E.Has s c = .ok true → E.Has (E.LoadCar s r).1 c = .ok true

/-- The decoder writes the root block of a single-root archive. -/
def DecoderWritesRoot {σ : Type} (E : Env σ) : Prop :=
  ∀ s r hdr c, (E.LoadCar s r).2 = .ok hdr → hdr.Roots = [c] →
    E.Has (E.LoadCar s r).1 c = .ok true

/-- A file is opened. -/
def Event.isOpen : Event → Bool
  | .openFile _ => true
  | _ => false

/-- The embedded table is consulted. -/
def Event.isEmbedded : Event → Bool
  | .embedded _ => true
  | _ => false

/-- The decoder runs. -/
def Event.isDecode : Event → Bool
  | .loadCar _ => true
  | _ => false

/-! ## A concrete environment

A small instance on which the general statements are evaluated.  The store is
the list of block keys written so far.  A stream is a list of numbers, each
naming one root; the byte 255 makes the stream malformed. -/

namespace Demo

def R8 : Cid := ⟨"R8"⟩
def R9 : Cid := ⟨"R9"⟩
def R11 : Cid := ⟨"R11"⟩
def R12 : Cid := ⟨"R12"⟩
def RX : Cid := ⟨"X"⟩

def cidOf : Nat → Cid
  | 8 => R8
  | 9 => R9
  | 12 => R12
  | _ => RX

def decode (s : List Cid) (r : Bytes) : List Cid × Except String CarHeader :=
  if 255 ∈ r then (s, .error "malformed")
  else (s ++ r.map cidOf, .ok ⟨r.map cidOf, 1⟩)

/-- Versions 8, 9, 11 and 12 are registered; the store fails on `R11`; the
catalogue has entries for 8, 9 and 11 only, with `path8` the mainnet path of
version 8; `override8` is the value of the override variable of version 8,
`override12` that of version 12; `emb8` is the embedded payload of version 8,
and version 9 embeds the stream `[9]`.  The file `/good8` holds `[8]`,
`/wrong8` holds `[7]`, `/two` holds `[8, 9]`, `/empty` holds `[]`, `/bad`
holds a malformed stream, `/good12` holds `[12]`, and no other file exists. -/
def env (override8 override12 path8 : String) (emb8 : Option Bytes) : Env (List Cid) where
  NetworkBundle := "mainnet"
  GetManifest := fun av =>
    if av = 8 then some R8 else if av = 9 then some R9
    else if av = 11 then some R11 else if av = 12 then some R12 else none
  Has := fun s c => if c = R11 then .error "io" else .ok (decide (c ∈ s))
  BuiltinActorReleases := fun av =>
    if av = 8 then some ⟨fun n => if n = "mainnet" then path8 else ""⟩
    else if av = 9 ∨ av = 11 then some ⟨fun _ => ""⟩ else none
  Getenv := fun name =>
    if name = envvar 8 then override8 else if name = envvar 12 then override12 else ""
  Open := fun path =>
    if path = "/good8" then .ok [8] else if path = "/wrong8" then .ok [7]
    else if path = "/two" then .ok [8, 9] else if path = "/empty" then .ok []
    else if path = "/bad" then .ok [255] else if path = "/good12" then .ok [12]
    else .error "no such file"
  GetEmbeddedBuiltinActorsBundle := fun av =>
    if av = 8 then emb8 else if av = 9 then some [9] else none
  LoadCar := decode

/-- The empty store with an empty trace. -/
def w0 : World (List Cid) := ⟨[], []⟩

end Demo

/-! ## Basic facts about the loop -/

theorem resume_none {σ : Type} (E : Env σ) (w1 : World σ) (versions : List Version) :
    resume E (w1, none) versions = LoadBundles E w1 versions := rfl

theorem resume_some {σ : Type} (E : Env σ) (w1 : World σ) (err : Error)
    (versions : List Version) : resume E (w1, some err) versions = (w1, some err) := rfl

theorem LoadBundles_cons {σ : Type} (E : Env σ) (w : World σ) (av : Version)
    (versions : List Version) :
    LoadBundles E w (av :: versions) = resume E (loadVersion E w av) versions := by
  rcases h : loadVersion E w av with ⟨w1, _ | err⟩ <;> simp [LoadBundles, resume, h]

theorem LoadBundles_concat_resume {σ : Type} (E : Env σ) (w : World σ)
    (vs ws : List Version) :
    LoadBundles E w (vs ++ ws) = resume E (LoadBundles E w vs) ws := by
  induction vs generalizing w with
  | nil => rfl
  | cons av vs ih =>
    rw [List.cons_append, LoadBundles_cons, LoadBundles_cons]
    rcases loadVersion E w av with ⟨w1, _ | err⟩
    · simp only [resume_none, ih]
    · simp only [resume_some]

/-- When the versions before `v` all pass, the loop reaches `v` in the world
they leave and continues from the outcome of its body. -/
theorem LoadBundles_reach {σ : Type} (E : Env σ) (w w1 : World σ)
    (pre post : List Version) (v : Version)
    (hreach : LoadBundles E w pre = (w1, none)) :
    LoadBundles E w (pre ++ v :: post) = resume E (loadVersion E w1 v) post := by
  rw [LoadBundles_concat_resume, hreach, resume_none, LoadBundles_cons]

/-! ## The single-archive loader -/

theorem LoadBundle_error {σ : Type} (E : Env σ) (w : World σ) (r : Bytes) (s : σ)
    (err : String) (h : E.LoadCar w.store r = (s, .error err)) :
    LoadBundle E w r = (⟨s, w.trace ++ [.loadCar r]⟩, Cid.Undef, some (.loadFailed err)) := by
  simp [LoadBundle, World.log, h]

theorem LoadBundle_count {σ : Type} (E : Env σ) (w : World σ) (r : Bytes) (s : σ)
    (hdr : CarHeader) (h : E.LoadCar w.store r = (s, .ok hdr)) (hn : hdr.Roots.length ≠ 1) :
    LoadBundle E w r
      = (⟨s, w.trace ++ [.loadCar r]⟩, Cid.Undef, some (.rootCount hdr.Roots.length)) := by
  simp [LoadBundle, World.log, h, hn]

theorem LoadBundle_one {σ : Type} (E : Env σ) (w : World σ) (r : Bytes) (s : σ)
    (hdr : CarHeader) (c : Cid) (h : E.LoadCar w.store r = (s, .ok hdr))
    (hc : hdr.Roots = [c]) :
    LoadBundle E w r = (⟨s, w.trace ++ [.loadCar r]⟩, c, none) := by
  simp [LoadBundle, World.log, h, hc]

/-- The three ways `LoadBundle` can end, in terms of the decoder's answer. -/
theorem LoadBundle_cases {σ : Type} (E : Env σ) (w : World σ) (r : Bytes) :
    (∃ s err, E.LoadCar w.store r = (s, .error err) ∧
      LoadBundle E w r = (⟨s, w.trace ++ [.loadCar r]⟩, Cid.Undef, some (.loadFailed err))) ∨
    (∃ s hdr, E.LoadCar w.store r = (s, .ok hdr) ∧ hdr.Roots.length ≠ 1 ∧
      LoadBundle E w r
        = (⟨s, w.trace ++ [.loadCar r]⟩, Cid.Undef, some (.rootCount hdr.Roots.length))) ∨
    (∃ s hdr c, E.LoadCar w.store r = (s, .ok hdr) ∧ hdr.Roots = [c] ∧
      LoadBundle E w r = (⟨s, w.trace ++ [.loadCar r]⟩, c, none)) := by
  rcases h : E.LoadCar w.store r with ⟨s, err | hdr⟩
  · exact Or.inl ⟨s, err, rfl, LoadBundle_error E w r s err h⟩
  · by_cases hn : hdr.Roots.length = 1
    · obtain ⟨c, hc⟩ := List.length_eq_one.mp hn
      exact Or.inr (Or.inr ⟨s, hdr, c, rfl, hc, LoadBundle_one E w r s hdr c h hc⟩)
    · exact Or.inr (Or.inl ⟨s, hdr, rfl, hn, LoadBundle_count E w r s hdr h hn⟩)

/-- C2. `LoadBundle` returns `(c, nil)` exactly when the decoder succeeds with
a header whose root list is `[c]`.  In every other case it returns
`cid.Undef` with a non-nil error: the decoder's error wrapped, or the
cardinality error naming the number of roots (zero, or two and more), and
then the identifier returned is none of the header's defined roots.  The
store is the one the decoder left. -/
theorem LoadBundle_single_root {σ : Type} (E : Env σ) (w : World σ) (r : Bytes) :
    (∀ c, (LoadBundle E w r).2 = (c, none) ↔
      ∃ s hdr, E.LoadCar w.store r = (s, .ok hdr) ∧ hdr.Roots = [c]) ∧
    ((¬ ∃ c s hdr, E.LoadCar w.store r = (s, .ok hdr) ∧ hdr.Roots = [c]) →
      (LoadBundle E w r).2.1 = Cid.Undef ∧ (LoadBundle E w r).2.2 ≠ none) ∧
    (∀ s err, E.LoadCar w.store r = (s, .error err) →
      (LoadBundle E w r).2 = (Cid.Undef, some (.loadFailed err))) ∧
    (∀ s hdr, E.LoadCar w.store r = (s, .ok hdr) → hdr.Roots.length ≠ 1 →
      (LoadBundle E w r).2 = (Cid.Undef, some (.rootCount hdr.Roots.length)) ∧
      ∀ x ∈ hdr.Roots, x ≠ Cid.Undef → (LoadBundle E w r).2.1 ≠ x) ∧
    (LoadBundle E w r).1.store = (E.LoadCar w.store r).1 := by
  refine ⟨?_, ?_, ?_, ?_, ?_⟩
  · intro c
    constructor
    · intro h
      rcases LoadBundle_cases E w r with ⟨s, err, _, hL⟩ | ⟨s, hdr, _, _, hL⟩ |
        ⟨s, hdr, c1, hd, hc, hL⟩
      · rw [hL] at h; simp at h
      · rw [hL] at h; simp at h
      · rw [hL] at h
        simp only [Prod.mk.injEq, and_true] at h
        exact ⟨s, hdr, hd, h ▸ hc⟩
    · rintro ⟨s, hdr, hd, hc⟩
      rw [LoadBundle_one E w r s hdr c hd hc]
  · intro hno
    rcases LoadBundle_cases E w r with ⟨s, err, _, hL⟩ | ⟨s, hdr, _, _, hL⟩ |
      ⟨s, hdr, c1, hd, hc, hL⟩
    · rw [hL]; simp
    · rw [hL]; simp
    · exact absurd ⟨c1, s, hdr, hd, hc⟩ hno
  · intro s err h
    rw [LoadBundle_error E w r s err h]
  · intro s hdr h hn
    rw [LoadBundle_count E w r s hdr h hn]
    exact ⟨rfl, fun x _ hx => fun h => hx h.symm⟩
  · rcases LoadBundle_cases E w r with ⟨s, err, hd, hL⟩ | ⟨s, hdr, hd, _, hL⟩ |
      ⟨s, hdr, c1, hd, hc, hL⟩ <;> rw [hL, hd]

/-- C2 on the concrete environment: a stream with two roots is refused with
the cardinality error and `cid.Undef`. -/
theorem LoadBundle_single_root_witness :
    (LoadBundle (Demo.env "" "" "" none) Demo.w0 [8, 9]).2
      = (Cid.Undef, some (.rootCount 2)) :=
  ((LoadBundle_single_root (Demo.env "" "" "" none) Demo.w0 [8, 9]).2.2.2.1
    [Demo.R8, Demo.R9] ⟨[Demo.R8, Demo.R9], 1⟩ rfl (by decide)).1

/-! ## The loop body, case by case -/

theorem loadVersion_below {σ : Type} (E : Env σ) (w : World σ) (av : Version)
    (h : av < Version8) : loadVersion E w av = (w, none) := by
  simp [loadVersion, h]

theorem loadVersion_unknown {σ : Type} (E : Env σ) (w : World σ) (av : Version)
    (hv : Version8 ≤ av) (hM : E.GetManifest av = none) :
    loadVersion E w av
      = (⟨w.store, w.trace ++ [.getManifest av]⟩, some (.unknownActorVersion av)) := by
  simp [loadVersion, not_lt.mpr hv, hM, World.log]

theorem loadVersion_hasError {σ : Type} (E : Env σ) (w : World σ) (av : Version) (M : Cid)
    (err : String) (hv : Version8 ≤ av) (hM : E.GetManifest av = some M)
    (hHas : E.Has w.store M = .error err) :
    loadVersion E w av
      = (⟨w.store, w.trace ++ [.getManifest av, .has M]⟩, some (.blockstore M err)) := by
  simp [loadVersion, not_lt.mpr hv, hM, World.log, hHas]

theorem loadVersion_present {σ : Type} (E : Env σ) (w : World σ) (av : Version) (M : Cid)
    (hv : Version8 ≤ av) (hM : E.GetManifest av = some M)
    (hHas : E.Has w.store M = .ok true) :
    loadVersion E w av = (⟨w.store, w.trace ++ [.getManifest av, .has M]⟩, none) := by
  simp [loadVersion, not_lt.mpr hv, hM, World.log, hHas]

theorem loadVersion_noRelease {σ : Type} (E : Env σ) (w : World σ) (av : Version) (M : Cid)
    (hv : Version8 ≤ av) (hM : E.GetManifest av = some M)
    (hHas : E.Has w.store M = .ok false) (hbd : E.BuiltinActorReleases av = none) :
    loadVersion E w av
      = (⟨w.store, w.trace ++ [.getManifest av, .has M, .releases av]⟩,
          some (.unknownActorsVersion av)) := by
  simp [loadVersion, not_lt.mpr hv, hM, World.log, hHas, hbd]

theorem loadVersion_load {σ : Type} (E : Env σ) (w : World σ) (av : Version) (M : Cid)
    (bd : BundleEntry) (hv : Version8 ≤ av) (hM : E.GetManifest av = some M)
    (hHas : E.Has w.store M = .ok false) (hbd : E.BuiltinActorReleases av = some bd) :
    loadVersion E w av
      = verifyRoot av M
          (loadSource E ⟨w.store, w.trace ++ [.getManifest av, .has M, .releases av]⟩ av bd) := by
  simp [loadVersion, not_lt.mpr hv, hM, World.log, hHas, hbd]

/-! ## The source chain, branch by branch -/

theorem LoadBundleFromFile_openError {σ : Type} (E : Env σ) (w : World σ) (path err : String)
    (h : E.Open path = .error err) :
    LoadBundleFromFile E w path
      = (⟨w.store, w.trace ++ [.openFile path]⟩, Cid.Undef, some (.openBundle path err)) := by
  simp [LoadBundleFromFile, World.log, h]

theorem LoadBundleFromFile_opened {σ : Type} (E : Env σ) (w : World σ) (path : String)
    (f : Bytes) (h : E.Open path = .ok f) :
    LoadBundleFromFile E w path = LoadBundle E ⟨w.store, w.trace ++ [.openFile path]⟩ f := by
  simp [LoadBundleFromFile, World.log, h]

theorem loadSource_override {σ : Type} (E : Env σ) (w : World σ) (av : Version)
    (bd : BundleEntry) (h : E.Getenv (envvar av) ≠ "") :
    loadSource E w av bd
      = LoadBundleFromFile E ⟨w.store, w.trace ++ [.getenv (envvar av)]⟩
          (E.Getenv (envvar av)) := by
  simp [loadSource, World.log, h]

theorem loadSource_catalogue {σ : Type} (E : Env σ) (w : World σ) (av : Version)
    (bd : BundleEntry) (h : E.Getenv (envvar av) = "") (hp : bd.Path E.NetworkBundle ≠ "") :
    loadSource E w av bd
      = LoadBundleFromFile E ⟨w.store, w.trace ++ [.getenv (envvar av)]⟩
          (bd.Path E.NetworkBundle) := by
  simp [loadSource, World.log, h, hp]

theorem loadSource_embedded {σ : Type} (E : Env σ) (w : World σ) (av : Version)
    (bd : BundleEntry) (embedded : Bytes) (h : E.Getenv (envvar av) = "")
    (hp : bd.Path E.NetworkBundle = "")
    (he : E.GetEmbeddedBuiltinActorsBundle av = some embedded) :
    loadSource E w av bd
      = LoadBundle E ⟨w.store, w.trace ++ [.getenv (envvar av), .embedded av]⟩ embedded := by
  simp [loadSource, World.log, h, hp, he]

theorem loadSource_notFound {σ : Type} (E : Env σ) (w : World σ) (av : Version)
    (bd : BundleEntry) (h : E.Getenv (envvar av) = "")
    (hp : bd.Path E.NetworkBundle = "")
    (he : E.GetEmbeddedBuiltinActorsBundle av = none) :
    loadSource E w av bd
      = (⟨w.store, w.trace ++ [.getenv (envvar av), .embedded av]⟩, Cid.Undef,
          some (.bundleNotFound av)) := by
  simp [loadSource, World.log, h, hp, he]

/-- With no source selected the chain ends in "bundle not found". -/
theorem loadSource_select_none {σ : Type} (E : Env σ) (w : World σ) (av : Version)
    (bd : BundleEntry) (h : selectSource E av bd = none) :
    loadSource E w av bd
      = (⟨w.store, w.trace ++ [.getenv (envvar av), .embedded av]⟩, Cid.Undef,
          some (.bundleNotFound av)) := by
  unfold selectSource at h
  split_ifs at h with h1 h2
  simp only [Option.map_eq_none'] at h
  exact loadSource_notFound E w av bd (not_not.mp h1) (not_not.mp h2) h

/-- A selected source that yields its bytes is handed to `LoadBundle`. -/
theorem loadSource_select_read {σ : Type} (E : Env σ) (w : World σ) (av : Version)
    (bd : BundleEntry) (src : Source) (bytes : Bytes) (h : selectSource E av bd = some src)
    (hr : src.read E = .ok bytes) :
    loadSource E w av bd = LoadBundle E ⟨w.store, w.trace ++ src.lookups av⟩ bytes := by
  unfold selectSource at h
  split_ifs at h with h1 h2
  · obtain rfl := Option.some.inj h
    rw [loadSource_override E w av bd h1, LoadBundleFromFile_opened E _ _ bytes hr]
    simp [Source.lookups]
  · obtain rfl := Option.some.inj h
    rw [loadSource_catalogue E w av bd (not_not.mp h1) h2,
      LoadBundleFromFile_opened E _ _ bytes hr]
    simp [Source.lookups]
  · obtain ⟨data, hd, rfl⟩ := Option.map_eq_some'.mp h
    obtain rfl : data = bytes := by simpa [Source.read] using hr
    rw [loadSource_embedded E w av bd data (not_not.mp h1) (not_not.mp h2) hd]
    simp [Source.lookups]

/-- A selected source that cannot be opened is a path and ends the chain with
the open error. -/
theorem loadSource_select_openError {σ : Type} (E : Env σ) (w : World σ) (av : Version)
    (bd : BundleEntry) (src : Source) (err : String) (h : selectSource E av bd = some src)
    (hr : src.read E = .error err) :
    ∃ path, src = .file path ∧ loadSource E w av bd
      = (⟨w.store, w.trace ++ src.lookups av⟩, Cid.Undef, some (.openBundle path err)) := by
  unfold selectSource at h
  split_ifs at h with h1 h2
  · obtain rfl := Option.some.inj h
    refine ⟨_, rfl, ?_⟩
    rw [loadSource_override E w av bd h1, LoadBundleFromFile_openError E _ _ err hr]
    simp [Source.lookups]
  · obtain rfl := Option.some.inj h
    refine ⟨_, rfl, ?_⟩
    rw [loadSource_catalogue E w av bd (not_not.mp h1) h2,
      LoadBundleFromFile_openError E _ _ err hr]
    simp [Source.lookups]
  · obtain ⟨data, hd, rfl⟩ := Option.map_eq_some'.mp h
    simp [Source.read] at hr

/-! ## Order of processing -/

/-- C9. `LoadBundles` on `vs ++ ws` is `LoadBundles` on `vs` followed by
`LoadBundles` on `ws`: if `vs` fails with `e` in world `w1`, so does
`vs ++ ws`, with the same world (store and trace), nothing of `ws` being
processed; if `vs` passes leaving `w1`, the outcome is that of `ws` started in
`w1`.  Each version is handled by the loop body in list order, one at a time,
and the error of the first failing version is the one returned. -/
theorem LoadBundles_fail_fast {σ : Type} (E : Env σ) (w : World σ) (vs ws : List Version) :
    (∀ w1 e, LoadBundles E w vs = (w1, some e) → LoadBundles E w (vs ++ ws) = (w1, some e)) ∧
    (∀ w1, LoadBundles E w vs = (w1, none) →
      LoadBundles E w (vs ++ ws) = LoadBundles E w1 ws) ∧
    LoadBundles E w [] = (w, none) ∧
    (∀ v, LoadBundles E w (v :: vs) = resume E (loadVersion E w v) vs) ∧
    (∀ w1 w2 v e, LoadBundles E w vs = (w1, none) → loadVersion E w1 v = (w2, some e) →
      LoadBundles E w (vs ++ v :: ws) = (w2, some e)) := by
  refine ⟨?_, ?_, rfl, fun v => LoadBundles_cons E w v vs, ?_⟩
  · intro w1 e h
    rw [LoadBundles_concat_resume, h, resume_some]
  · intro w1 h
    rw [LoadBundles_concat_resume, h, resume_none]
  · intro w1 w2 v e h hv
    rw [LoadBundles_reach E w w1 vs ws v h, hv, resume_some]

/-- C9 on the concrete environment: version 10 is unregistered, so `[8, 10]`
fails and `[8, 10] ++ [9]` fails in the same way, version 9 untouched. -/
theorem LoadBundles_fail_fast_witness :
    LoadBundles (Demo.env "" "" "/good8" none) Demo.w0 [8, 10]
        = (⟨[Demo.R8], [.getManifest 8, .has Demo.R8, .releases 8, .getenv (envvar 8),
              .openFile "/good8", .loadCar [8], .getManifest 10]⟩,
            some (.unknownActorVersion 10)) ∧
      LoadBundles (Demo.env "" "" "/good8" none) Demo.w0 ([8, 10] ++ [9])
        = (⟨[Demo.R8], [.getManifest 8, .has Demo.R8, .releases 8, .getenv (envvar 8),
              .openFile "/good8", .loadCar [8], .getManifest 10]⟩,
            some (.unknownActorVersion 10)) :=
  ⟨rfl, (LoadBundles_fail_fast (Demo.env "" "" "/good8" none) Demo.w0 [8, 10] [9]).1 _ _ rfl⟩

/-! ## Versions below the minimum -/

theorem LoadBundles_filter {σ : Type} (E : Env σ) (w : World σ) (vs : List Version) :
    LoadBundles E w vs = LoadBundles E w (vs.filter (fun v => decide (Version8 ≤ v))) := by
  induction vs generalizing w with
  | nil => rfl
  | cons v vs ih =>
    by_cases hv : Version8 ≤ v
    · rw [List.filter_cons_of_pos (by simpa using hv), LoadBundles_cons, LoadBundles_cons]
      rcases loadVersion E w v with ⟨w1, _ | err⟩
      · simp only [resume_none]; exact ih w1
      · rfl
    · rw [List.filter_cons_of_neg (by simpa using hv), LoadBundles_cons,
        loadVersion_below E w v (not_le.mp hv), resume_none]
      exact ih w

/-- C6. A version below `Version8` leaves the world as it found it (the same
store and not one call added to the trace) and yields no error.  So
`LoadBundles` on a list gives the result, store and trace it gives on the list
with the versions below `Version8` removed, and on a list of such versions only
it returns nil in the unchanged world. -/
theorem LoadBundles_skip_below {σ : Type} (E : Env σ) (w : World σ) (vs : List Version) :
    (∀ (w1 : World σ) (v : Version), v < Version8 → loadVersion E w1 v = (w1, none)) ∧
    LoadBundles E w vs = LoadBundles E w (vs.filter (fun v => decide (Version8 ≤ v))) ∧
    ((∀ v ∈ vs, v < Version8) → LoadBundles E w vs = (w, none)) := by
  refine ⟨fun w1 v h => loadVersion_below E w1 v h, LoadBundles_filter E w vs, ?_⟩
  intro h
  rw [LoadBundles_filter]
  have : vs.filter (fun v => decide (Version8 ≤ v)) = [] := by
    rw [List.filter_eq_nil_iff]
    intro v hv
    simpa using h v hv
  rw [this]
  rfl

/-- C6 on the concrete environment: versions 7, 0 and -3 are skipped without a
call, although none of them is registered. -/
theorem LoadBundles_skip_below_witness :
    LoadBundles (Demo.env "" "" "" none) Demo.w0 [7, 0, -3] = (Demo.w0, none) :=
  (LoadBundles_skip_below (Demo.env "" "" "" none) Demo.w0 [7, 0, -3]).2.2 (by decide)

/-! ## Fatal configuration and store errors -/

/-- C10. When the loop reaches a version `v ≥ Version8` that the manifest
registry does not know, `LoadBundles` returns the "unknown actor version"
error for `v`; the only call made for `v` is the registry lookup (no store
query, no catalogue, override, file or embedded access, no decode) and the
versions after `v` are not processed.  When the store query for the
registered root fails, `LoadBundles` returns the blockstore error, the calls
for `v` being the registry lookup and the query only. -/
theorem LoadBundles_missing_manifest {σ : Type} (E : Env σ) (w w1 : World σ)
    (pre post : List Version) (v : Version)
    (hreach : LoadBundles E w pre = (w1, none)) (hv : Version8 ≤ v) :
    (E.GetManifest v = none →
      LoadBundles E w (pre ++ v :: post)
        = (⟨w1.store, w1.trace ++ [.getManifest v]⟩, some (.unknownActorVersion v))) ∧
    (∀ M err, E.GetManifest v = some M → E.Has w1.store M = .error err →
      LoadBundles E w (pre ++ v :: post)
        = (⟨w1.store, w1.trace ++ [.getManifest v, .has M]⟩, some (.blockstore M err))) := by
  constructor
  · intro hM
    rw [LoadBundles_reach E w w1 pre post v hreach, loadVersion_unknown E w1 v hv hM,
      resume_some]
  · intro M err hM hHas
    rw [LoadBundles_reach E w w1 pre post v hreach, loadVersion_hasError E w1 v M err hv hM hHas,
      resume_some]

/-- C10 on the concrete environment: after the skipped version 7, the
unregistered version 10 stops the loop before version 8, and so does version
11, whose root the store cannot query. -/
theorem LoadBundles_missing_manifest_witness :
    LoadBundles (Demo.env "" "" "/good8" none) Demo.w0 ([7] ++ 10 :: [8])
        = (⟨[], [.getManifest 10]⟩, some (.unknownActorVersion 10)) ∧
      LoadBundles (Demo.env "" "" "/good8" none) Demo.w0 ([7] ++ 11 :: [8])
        = (⟨[], [.getManifest 11, .has Demo.R11]⟩, some (.blockstore Demo.R11 "io")) :=
  ⟨(LoadBundles_missing_manifest (Demo.env "" "" "/good8" none) Demo.w0 Demo.w0 [7] [8] 10
      rfl (by decide)).1 rfl,
   (LoadBundles_missing_manifest (Demo.env "" "" "/good8" none) Demo.w0 Demo.w0 [7] [8] 11
      rfl (by decide)).2 Demo.R11 "io" rfl rfl⟩

/-! ## The already-present check -/

/-- C4. When the store answers `true` for the registered root `M` of a version
`v ≥ Version8`, the body of the loop for `v` makes two calls only, the registry
lookup and the store query: no catalogue lookup, no read of the override
variable, no file opened, no embedded lookup, no decode, whatever the sources
of `v` are.  It leaves the store unchanged and yields no error, and the loop
goes on with the remaining versions.  Conversely, if the body makes any call
to the catalogue, the environment, a file, the embedded table or the decoder,
then `v ≥ Version8`, its root is registered and the store answered `false`. -/
theorem LoadBundles_already_present {σ : Type} (E : Env σ) (w1 : World σ) (v : Version) :
    (∀ M, Version8 ≤ v → E.GetManifest v = some M → E.Has w1.store M = .ok true →
      loadVersion E w1 v = (⟨w1.store, w1.trace ++ [.getManifest v, .has M]⟩, none) ∧
      ∀ w pre post, LoadBundles E w pre = (w1, none) →
        LoadBundles E w (pre ++ v :: post)
          = LoadBundles E ⟨w1.store, w1.trace ++ [.getManifest v, .has M]⟩ post) ∧
    (∀ t, (loadVersion E w1 v).1.trace = w1.trace ++ t → (∃ e ∈ t, e.isSourceCall = true) →
      Version8 ≤ v ∧ ∃ M, E.GetManifest v = some M ∧ E.Has w1.store M = .ok false) := by
  constructor
  · intro M hv hM hHas
    refine ⟨loadVersion_present E w1 v M hv hM hHas, ?_⟩
    intro w pre post hreach
    rw [LoadBundles_reach E w w1 pre post v hreach, loadVersion_present E w1 v M hv hM hHas,
      resume_none]
  · intro t ht ⟨e, het, hes⟩
    by_cases hv : Version8 ≤ v
    · refine ⟨hv, ?_⟩
      rcases hM : E.GetManifest v with _ | M
      · rw [loadVersion_unknown E w1 v hv hM] at ht
        obtain rfl := List.append_cancel_left ht
        simp at het; subst het; simp [Event.isSourceCall] at hes
      · refine ⟨M, rfl, ?_⟩
        rcases hHas : E.Has w1.store M with err | b
        · rw [loadVersion_hasError E w1 v M err hv hM hHas] at ht
          obtain rfl := List.append_cancel_left ht
          simp at het
          rcases het with rfl | rfl <;> simp [Event.isSourceCall] at hes
        · cases b
          · rfl
          · rw [loadVersion_present E w1 v M hv hM hHas] at ht
            obtain rfl := List.append_cancel_left ht
            simp at het
            rcases het with rfl | rfl <;> simp [Event.isSourceCall] at hes
    · rw [loadVersion_below E w1 v (not_le.mp hv)] at ht
      have : t = [] := by simpa using ht
      subst this
      simp at het

/-- C4 on the concrete environment: the store already holds `R8`; version 8 is
passed with two calls although its override names a missing file, its
catalogue path a malformed one and its embedded payload is malformed, and
version 9 is processed next. -/
theorem LoadBundles_already_present_witness :
    LoadBundles (Demo.env "/missing" "" "/bad" (some [255])) ⟨[Demo.R8], []⟩ ([7] ++ 8 :: [9])
      = LoadBundles (Demo.env "/missing" "" "/bad" (some [255]))
          ⟨[Demo.R8], [] ++ [.getManifest 8, .has Demo.R8]⟩ [9] :=
  ((LoadBundles_already_present (Demo.env "/missing" "" "/bad" (some [255]))
      ⟨[Demo.R8], []⟩ 8).1 Demo.R8 (by decide) rfl rfl).2 ⟨[Demo.R8], []⟩ [7] [9] rfl

/-! ## Integrity of the loaded root -/

/-- C1. Suppose the loop reaches `v ≥ Version8` (the versions before it pass,
leaving `w1`), `v` has the registered root `M`, the store answers `false` for
`M`, the catalogue has an entry for `v`, and the source selected by the chain
yields bytes that the decoder accepts with the single root `X ≠ M`.  Then
`LoadBundles` returns the mismatch error naming `M` and `X`; the trace ends
with the decode for `v`, so no call is made for any later version, and the
outcome is the same for every list of later versions. -/
theorem LoadBundles_integrity {σ : Type} (E : Env σ) (w w1 : World σ)
    (pre post : List Version) (v : Version) (M X : Cid) (bd : BundleEntry) (src : Source)
    (bytes : Bytes) (s2 : σ) (hdr : CarHeader)
    (hreach : LoadBundles E w pre = (w1, none)) (hv : Version8 ≤ v)
    (hM : E.GetManifest v = some M) (hHas : E.Has w1.store M = .ok false)
    (hbd : E.BuiltinActorReleases v = some bd)
    (hsel : selectSource E v bd = some src) (hread : src.read E = .ok bytes)
    (hdec : E.LoadCar w1.store bytes = (s2, .ok hdr)) (hroots : hdr.Roots = [X])
    (hne : X ≠ M) :
    LoadBundles E w (pre ++ v :: post)
        = (⟨s2, w1.trace ++ [.getManifest v, .has M, .releases v] ++ src.lookups v
              ++ [.loadCar bytes]⟩,
            some (.manifestMismatch v M X)) ∧
      LoadBundles E w (pre ++ v :: post) = LoadBundles E w (pre ++ [v]) := by
  have key : ∀ post, LoadBundles E w (pre ++ v :: post)
      = (⟨s2, w1.trace ++ [.getManifest v, .has M, .releases v] ++ src.lookups v
            ++ [.loadCar bytes]⟩,
          some (.manifestMismatch v M X)) := by
    intro post
    rw [LoadBundles_reach E w w1 pre post v hreach, loadVersion_load E w1 v M bd hv hM hHas hbd,
      loadSource_select_read E _ v bd src bytes hsel hread]
    dsimp only
    rw [LoadBundle_one E
      (⟨w1.store, w1.trace ++ [Event.getManifest v, Event.has M, Event.releases v]
          ++ src.lookups v⟩ : World σ)
      bytes s2 hdr X hdec hroots]
    simp [verifyRoot, hne, resume]
  exact ⟨key post, by rw [key post, key []]⟩

/-- C1 on the concrete environment: the override of version 8 names a
well-formed archive whose root is not `R8`; the loop stops there and version 9
is not touched. -/
theorem LoadBundles_integrity_witness :
    LoadBundles (Demo.env "/wrong8" "" "/good8" (some [8])) Demo.w0 ([7] ++ 8 :: [9])
      = (⟨[Demo.RX], [] ++ [.getManifest 8, .has Demo.R8, .releases 8]
            ++ Source.lookups 8 (.file "/wrong8") ++ [.loadCar [7]]⟩,
          some (.manifestMismatch 8 Demo.R8 Demo.RX)) :=
  (LoadBundles_integrity (Demo.env "/wrong8" "" "/good8" (some [8])) Demo.w0 Demo.w0 [7] [9] 8
    Demo.R8 Demo.RX ⟨fun n => if n = "mainnet" then "/good8" else ""⟩ (.file "/wrong8") [7]
    [Demo.RX] ⟨[Demo.RX], 1⟩ rfl (by decide) rfl rfl rfl rfl rfl rfl rfl (by decide)).1

/-! ## Source priority -/

theorem LoadBundle_trace {σ : Type} (E : Env σ) (w : World σ) (r : Bytes) :
    (LoadBundle E w r).1.trace = w.trace ++ [.loadCar r] := by
  rcases LoadBundle_cases E w r with ⟨s, err, _, hL⟩ | ⟨s, hdr, _, _, hL⟩ |
    ⟨s, hdr, c, _, _, hL⟩ <;> rw [hL]

theorem verifyRoot_world {σ : Type} (av : Version) (M : Cid)
    (r : World σ × Cid × Option Error) : (verifyRoot av M r).1 = r.1 := by
  rcases r with ⟨w, root, _ | err⟩
  · simp only [verifyRoot]; split_ifs <;> rfl
  · rfl

theorem verifyRoot_error {σ : Type} (av : Version) (M : Cid) (w : World σ) (root : Cid)
    (err : Error) : verifyRoot av M (w, root, some err) = (w, some err) := rfl

/-- The calls added by the chain: at most one of "open a file" and "consult
the embedded table", and at most one decode. -/
theorem loadSource_trace {σ : Type} (E : Env σ) (w : World σ) (av : Version)
    (bd : BundleEntry) :
    ∃ t, (loadSource E w av bd).1.trace = w.trace ++ t ∧
      t.countP Event.isOpen + t.countP Event.isEmbedded ≤ 1 ∧
      t.countP Event.isDecode ≤ 1 := by
  rcases hsel : selectSource E av bd with _ | src
  · refine ⟨[.getenv (envvar av), .embedded av], ?_, ?_, ?_⟩
    · rw [loadSource_select_none E w av bd hsel]
    · simp [List.countP_cons, Event.isOpen, Event.isEmbedded]
    · simp [List.countP_cons, Event.isDecode]
  · rcases hr : src.read E with err | bytes
    · obtain ⟨path, rfl, hL⟩ := loadSource_select_openError E w av bd src err hsel hr
      refine ⟨Source.lookups av (.file path), by rw [hL], ?_, ?_⟩
      · simp [Source.lookups, List.countP_cons, Event.isOpen, Event.isEmbedded]
      · simp [Source.lookups, List.countP_cons, Event.isDecode]
    · refine ⟨src.lookups av ++ [.loadCar bytes], ?_, ?_, ?_⟩
      · rw [loadSource_select_read E w av bd src bytes hsel hr, LoadBundle_trace]
        simp
      · cases src <;>
          simp [Source.lookups, List.countP_cons, Event.isOpen, Event.isEmbedded]
      · cases src <;> simp [Source.lookups, List.countP_cons, Event.isDecode]

/-- C3. For a version `v ≥ Version8` reached by the loop, with a registered
root that the store reports absent and a catalogue entry `bd`: if the
override variable `LOTUS_BUILTIN_ACTORS_V<v>_BUNDLE` is non-empty, the file
at that path is loaded; otherwise, if the catalogue path for the network is
non-empty, the file at that path is loaded; otherwise, if an embedded payload
exists, its bytes are loaded; otherwise `LoadBundles` returns "bundle not
found" for `v` with no file opened and no decode.  An error of the chain is
returned as it is, in the world the chain left (no fallback), and the chain
adds at most one file open or embedded lookup and at most one decode. -/
theorem LoadBundles_source_priority {σ : Type} (E : Env σ) (w w1 : World σ)
    (pre post : List Version) (v : Version) (M : Cid) (bd : BundleEntry)
    (hreach : LoadBundles E w pre = (w1, none)) (hv : Version8 ≤ v)
    (hM : E.GetManifest v = some M) (hHas : E.Has w1.store M = .ok false)
    (hbd : E.BuiltinActorReleases v = some bd) :
    (E.Getenv (envvar v) ≠ "" →
      LoadBundles E w (pre ++ v :: post)
        = resume E (verifyRoot v M (LoadBundleFromFile E
            ⟨w1.store, w1.trace ++ [.getManifest v, .has M, .releases v, .getenv (envvar v)]⟩
            (E.Getenv (envvar v)))) post) ∧
    (E.Getenv (envvar v) = "" → bd.Path E.NetworkBundle ≠ "" →
      LoadBundles E w (pre ++ v :: post)
        = resume E (verifyRoot v M (LoadBundleFromFile E
            ⟨w1.store, w1.trace ++ [.getManifest v, .has M, .releases v, .getenv (envvar v)]⟩
            (bd.Path E.NetworkBundle))) post) ∧
    (∀ embedded, E.Getenv (envvar v) = "" → bd.Path E.NetworkBundle = "" →
      E.GetEmbeddedBuiltinActorsBundle v = some embedded →
      LoadBundles E w (pre ++ v :: post)
        = resume E (verifyRoot v M (LoadBundle E
            ⟨w1.store, w1.trace ++ [.getManifest v, .has M, .releases v, .getenv (envvar v),
              .embedded v]⟩ embedded)) post) ∧
    (E.Getenv (envvar v) = "" → bd.Path E.NetworkBundle = "" →
      E.GetEmbeddedBuiltinActorsBundle v = none →
      LoadBundles E w (pre ++ v :: post)
        = (⟨w1.store, w1.trace ++ [.getManifest v, .has M, .releases v, .getenv (envvar v),
              .embedded v]⟩, some (.bundleNotFound v))) ∧
    (∀ w2 root err,
      loadSource E ⟨w1.store, w1.trace ++ [.getManifest v, .has M, .releases v]⟩ v bd
        = (w2, root, some err) →
      LoadBundles E w (pre ++ v :: post) = (w2, some err)) ∧
    (∃ t, (loadVersion E w1 v).1.trace
        = w1.trace ++ [.getManifest v, .has M, .releases v] ++ t ∧
      t.countP Event.isOpen + t.countP Event.isEmbedded ≤ 1 ∧
      t.countP Event.isDecode ≤ 1) := by
  have hstep : LoadBundles E w (pre ++ v :: post)
      = resume E (verifyRoot v M
          (loadSource E ⟨w1.store, w1.trace ++ [.getManifest v, .has M, .releases v]⟩ v bd))
          post := by
    rw [LoadBundles_reach E w w1 pre post v hreach, loadVersion_load E w1 v M bd hv hM hHas hbd]
  refine ⟨?_, ?_, ?_, ?_, ?_, ?_⟩
  · intro h1
    rw [hstep, loadSource_override E _ v bd h1]
    simp
  · intro h1 h2
    rw [hstep, loadSource_catalogue E _ v bd h1 h2]
    simp
  · intro embedded h1 h2 h3
    rw [hstep, loadSource_embedded E _ v bd embedded h1 h2 h3]
    simp
  · intro h1 h2 h3
    rw [hstep, loadSource_notFound E _ v bd h1 h2 h3]
    simp [verifyRoot, resume]
  · intro w2 root err h
    rw [hstep, h, verifyRoot_error, resume_some]
  · obtain ⟨t, ht, h1, h2⟩ :=
      loadSource_trace E ⟨w1.store, w1.trace ++ [.getManifest v, .has M, .releases v]⟩ v bd
    exact ⟨t, by rw [loadVersion_load E w1 v M bd hv hM hHas hbd, verifyRoot_world, ht], h1, h2⟩

/-- C3 on the concrete environment, for version 8 with the store empty.  With
override, catalogue path and embedded payload all present the override file is
the one opened; without the override, the catalogue file; without both, the
embedded payload. -/
theorem LoadBundles_source_priority_witness :
    LoadBundles (Demo.env "/good8" "" "/wrong8" (some [255])) Demo.w0 ([] ++ 8 :: [])
        = (⟨[Demo.R8], [.getManifest 8, .has Demo.R8, .releases 8, .getenv (envvar 8),
              .openFile "/good8", .loadCar [8]]⟩, none) ∧
      LoadBundles (Demo.env "" "" "/good8" (some [255])) Demo.w0 ([] ++ 8 :: [])
        = (⟨[Demo.R8], [.getManifest 8, .has Demo.R8, .releases 8, .getenv (envvar 8),
              .openFile "/good8", .loadCar [8]]⟩, none) ∧
      LoadBundles (Demo.env "" "" "" (some [8])) Demo.w0 ([] ++ 8 :: [])
        = (⟨[Demo.R8], [.getManifest 8, .has Demo.R8, .releases 8, .getenv (envvar 8),
              .embedded 8, .loadCar [8]]⟩, none) :=
  ⟨((LoadBundles_source_priority (Demo.env "/good8" "" "/wrong8" (some [255])) Demo.w0 Demo.w0
      [] [] 8 Demo.R8 ⟨fun n => if n = "mainnet" then "/wrong8" else ""⟩
      rfl (by decide) rfl rfl rfl).1 (by decide)).trans rfl,
   ((LoadBundles_source_priority (Demo.env "" "" "/good8" (some [255])) Demo.w0 Demo.w0
      [] [] 8 Demo.R8 ⟨fun n => if n = "mainnet" then "/good8" else ""⟩
      rfl (by decide) rfl rfl rfl).2.1 (by decide) (by decide)).trans rfl,
   ((LoadBundles_source_priority (Demo.env "" "" "" (some [8])) Demo.w0 Demo.w0
      [] [] 8 Demo.R8 ⟨fun n => if n = "mainnet" then "" else ""⟩
      rfl (by decide) rfl rfl rfl).2.2.1 [8] (by decide) (by decide) rfl).trans rfl⟩

/-! ## The override variable -/

theorem LoadBundle_not_notFound {σ : Type} (E : Env σ) (w : World σ) (r : Bytes)
    (av : Version) : (LoadBundle E w r).2.2 ≠ some (.bundleNotFound av) := by
  rcases LoadBundle_cases E w r with ⟨s, err, _, hL⟩ | ⟨s, hdr, _, _, hL⟩ |
    ⟨s, hdr, c, _, _, hL⟩ <;> rw [hL] <;> simp

theorem LoadBundleFromFile_not_notFound {σ : Type} (E : Env σ) (w : World σ)
    (path : String) (av : Version) :
    (LoadBundleFromFile E w path).2.2 ≠ some (.bundleNotFound av) := by
  rcases h : E.Open path with err | f
  · rw [LoadBundleFromFile_openError E w path err h]; simp
  · rw [LoadBundleFromFile_opened E w path f h]; exact LoadBundle_not_notFound E _ f av

theorem LoadBundleFromFile_trace {σ : Type} (E : Env σ) (w : World σ) (path : String) :
    ∃ t, (LoadBundleFromFile E w path).1.trace = w.trace ++ .openFile path :: t := by
  rcases h : E.Open path with err | f
  · exact ⟨[], by rw [LoadBundleFromFile_openError E w path err h]⟩
  · exact ⟨[.loadCar f], by rw [LoadBundleFromFile_opened E w path f h, LoadBundle_trace]; simp⟩

theorem verifyRoot_notFound {σ : Type} (av a : Version) (M : Cid)
    (r : World σ × Cid × Option Error)
    (h : (verifyRoot av M r).2 = some (.bundleNotFound a)) :
    r.2.2 = some (.bundleNotFound a) := by
  rcases r with ⟨w, root, _ | err⟩
  · simp only [verifyRoot] at h
    split_ifs at h
    simp at h
  · exact h

/-- C7, as amended.  For a version `v ≥ Version8` reached by the loop whose
root is registered and reported absent by the store: when the catalogue has an
entry for `v`, whatever its paths, a non-empty override variable makes
`LoadBundles` run the single-archive loader on the override path, the file
opened for `v` being that path, and "bundle not found" is reported for `v` only
when the override is empty, the catalogue path is empty and there is no
embedded payload; when the catalogue has no entry for `v`, `LoadBundles`
returns "unknown actors version" without reading the override variable. -/
theorem LoadBundles_override {σ : Type} (E : Env σ) (w w1 : World σ)
    (pre post : List Version) (v : Version) (M : Cid)
    (hreach : LoadBundles E w pre = (w1, none)) (hv : Version8 ≤ v)
    (hM : E.GetManifest v = some M) (hHas : E.Has w1.store M = .ok false) :
    (∀ bd, E.BuiltinActorReleases v = some bd →
      (E.Getenv (envvar v) ≠ "" →
        LoadBundles E w (pre ++ v :: post)
            = resume E (verifyRoot v M (LoadBundleFromFile E
                ⟨w1.store, w1.trace ++ [.getManifest v, .has M, .releases v,
                  .getenv (envvar v)]⟩ (E.Getenv (envvar v)))) post ∧
          ∃ t, (loadVersion E w1 v).1.trace
            = w1.trace ++ [.getManifest v, .has M, .releases v, .getenv (envvar v),
                .openFile (E.Getenv (envvar v))] ++ t) ∧
      (∀ a, (loadVersion E w1 v).2 = some (.bundleNotFound a) →
        E.Getenv (envvar v) = "" ∧ bd.Path E.NetworkBundle = "" ∧
          E.GetEmbeddedBuiltinActorsBundle v = none)) ∧
    (E.BuiltinActorReleases v = none →
      LoadBundles E w (pre ++ v :: post)
        = (⟨w1.store, w1.trace ++ [.getManifest v, .has M, .releases v]⟩,
            some (.unknownActorsVersion v))) := by
  constructor
  · intro bd hbd
    have hbody := loadVersion_load E w1 v M bd hv hM hHas hbd
    constructor
    · intro h1
      constructor
      · rw [LoadBundles_reach E w w1 pre post v hreach, hbody, loadSource_override E _ v bd h1]
        simp
      · obtain ⟨t, ht⟩ := LoadBundleFromFile_trace E
          (⟨w1.store, w1.trace ++ [Event.getManifest v, Event.has M, Event.releases v,
            Event.getenv (envvar v)]⟩ : World σ) (E.Getenv (envvar v))
        refine ⟨t, ?_⟩
        rw [hbody, verifyRoot_world, loadSource_override E _ v bd h1]
        simp only [List.append_assoc, List.cons_append, List.nil_append] at ht ⊢
        exact ht
    · intro a ha
      rw [hbody] at ha
      have h := verifyRoot_notFound v a M _ ha
      by_cases h1 : E.Getenv (envvar v) = ""
      · by_cases h2 : bd.Path E.NetworkBundle = ""
        · refine ⟨h1, h2, ?_⟩
          rcases h3 : E.GetEmbeddedBuiltinActorsBundle v with _ | embedded
          · rfl
          · rw [loadSource_embedded E _ v bd embedded h1 h2 h3] at h
            exact absurd h (LoadBundle_not_notFound E _ embedded a)
        · rw [loadSource_catalogue E _ v bd h1 h2] at h
          exact absurd h (LoadBundleFromFile_not_notFound E _ _ a)
      · rw [loadSource_override E _ v bd h1] at h
        exact absurd h (LoadBundleFromFile_not_notFound E _ _ a)
  · intro hbd
    rw [LoadBundles_reach E w w1 pre post v hreach,
      loadVersion_noRelease E w1 v M hv hM hHas hbd, resume_some]

/-- C7 on the concrete environment: the override of version 8 is set, the
catalogue path and the embedded payload are both unusable, and the override
file is the one loaded. -/
theorem LoadBundles_override_witness :
    LoadBundles (Demo.env "/good8" "" "/bad" (some [255])) Demo.w0 ([7] ++ 8 :: [])
      = (⟨[Demo.R8], [.getManifest 8, .has Demo.R8, .releases 8, .getenv (envvar 8),
            .openFile "/good8", .loadCar [8]]⟩, none) :=
  ((((LoadBundles_override (Demo.env "/good8" "" "/bad" (some [255])) Demo.w0 Demo.w0
      [7] [] 8 Demo.R8 rfl (by decide) rfl rfl).1
        ⟨fun n => if n = "mainnet" then "/bad" else ""⟩ rfl).1 (by decide)).1).trans rfl

/-- C7 as stated fails: version 12 is registered, its root is absent from the
store and its override variable names the file `/good12`, which holds a
well-formed archive with the single root `R12`, but the catalogue has no entry
for 12.  `LoadBundles` returns "unknown actors version 12" after the catalogue
lookup; the override variable is not read and no file is opened. -/
theorem LoadBundles_override_counterexample :
    Version8 ≤ 12 ∧
      (Demo.env "" "/good12" "" none).GetManifest 12 = some Demo.R12 ∧
      (Demo.env "" "/good12" "" none).Has Demo.w0.store Demo.R12 = .ok false ∧
      (Demo.env "" "/good12" "" none).Getenv (envvar 12) = "/good12" ∧
      (LoadBundleFromFile (Demo.env "" "/good12" "" none) Demo.w0 "/good12").2
        = (Demo.R12, none) ∧
      LoadBundles (Demo.env "" "/good12" "" none) Demo.w0 [12]
        = (⟨[], [.getManifest 12, .has Demo.R12, .releases 12]⟩,
            some (.unknownActorsVersion 12)) ∧
      Event.openFile "/good12" ∉
        (LoadBundles (Demo.env "" "/good12" "" none) Demo.w0 [12]).1.trace := by
  refine ⟨by decide, rfl, rfl, rfl, rfl, rfl, ?_⟩
  decide

/-! ## What success means -/

/-- When the body succeeds for `v ≥ Version8`, the root `M` of `v` is
registered and either the store had it, or the selected source was decoded to
the single root `M`. -/
theorem loadVersion_success {σ : Type} (E : Env σ) (w1 w2 : World σ) (v : Version)
    (hv : Version8 ≤ v) (h : loadVersion E w1 v = (w2, none)) :
    ∃ M, E.GetManifest v = some M ∧
      ((E.Has w1.store M = .ok true ∧
          w2 = ⟨w1.store, w1.trace ++ [.getManifest v, .has M]⟩) ∨
        (E.Has w1.store M = .ok false ∧
          ∃ bd src bytes s2 hdr, E.BuiltinActorReleases v = some bd ∧
            selectSource E v bd = some src ∧ src.read E = .ok bytes ∧
            E.LoadCar w1.store bytes = (s2, .ok hdr) ∧ hdr.Roots = [M] ∧
            w2 = ⟨s2, w1.trace ++ [.getManifest v, .has M, .releases v] ++ src.lookups v
                    ++ [.loadCar bytes]⟩)) := by
  rcases hM : E.GetManifest v with _ | M
  · rw [loadVersion_unknown E w1 v hv hM] at h; simp at h
  refine ⟨M, rfl, ?_⟩
  rcases hHas : E.Has w1.store M with err | b
  · rw [loadVersion_hasError E w1 v M err hv hM hHas] at h; simp at h
  cases b
  · right
    refine ⟨rfl, ?_⟩
    rcases hbd : E.BuiltinActorReleases v with _ | bd
    · rw [loadVersion_noRelease E w1 v M hv hM hHas hbd] at h; simp at h
    rw [loadVersion_load E w1 v M bd hv hM hHas hbd] at h
    rcases hsel : selectSource E v bd with _ | src
    · rw [loadSource_select_none E _ v bd hsel] at h; simp [verifyRoot] at h
    rcases hr : src.read E with err | bytes
    · obtain ⟨path, _, hL⟩ := loadSource_select_openError E
        (⟨w1.store, w1.trace ++ [Event.getManifest v, Event.has M, Event.releases v]⟩ : World σ)
        v bd src err hsel hr
      rw [hL] at h; simp [verifyRoot] at h
    rw [loadSource_select_read E _ v bd src bytes hsel hr] at h
    rcases LoadBundle_cases E
        (⟨w1.store, w1.trace ++ [Event.getManifest v, Event.has M, Event.releases v]
          ++ src.lookups v⟩ : World σ) bytes with
      ⟨s, err, _, hL⟩ | ⟨s, hdr, _, _, hL⟩ | ⟨s, hdr, c, hd, hc, hL⟩
    · rw [hL] at h; simp [verifyRoot] at h
    · rw [hL] at h; simp [verifyRoot] at h
    · rw [hL] at h
      by_cases hcM : c = M
      · subst hcM
        simp only [verifyRoot, ne_eq, not_true_eq_false, if_false, Prod.mk.injEq, and_true] at h
        exact ⟨bd, src, bytes, s, hdr, rfl, hsel, hr, hd, hc, h.symm⟩
      · simp [verifyRoot, hcM] at h
  · left
    rw [loadVersion_present E w1 v M hv hM hHas] at h
    exact ⟨rfl, (Prod.mk.inj h).1.symm⟩

/-- A successful run on `pre ++ v :: post` is a successful run on `pre`
followed by a successful body for `v`. -/
theorem LoadBundles_nil_split {σ : Type} (E : Env σ) (w wf : World σ)
    (pre post : List Version) (v : Version)
    (hok : LoadBundles E w (pre ++ v :: post) = (wf, none)) :
    ∃ w1 w2, LoadBundles E w pre = (w1, none) ∧ loadVersion E w1 v = (w2, none) ∧
      LoadBundles E w2 post = (wf, none) := by
  rw [LoadBundles_concat_resume] at hok
  rcases hpre : LoadBundles E w pre with ⟨w1, _ | err⟩
  · rw [hpre, resume_none, LoadBundles_cons] at hok
    rcases hbody : loadVersion E w1 v with ⟨w2, _ | err⟩
    · rw [hbody, resume_none] at hok
      exact ⟨w1, w2, rfl, hbody, hok⟩
    · rw [hbody, resume_some] at hok; simp at hok
  · rw [hpre, resume_some] at hok; simp at hok

/-- C8. If `LoadBundles` returns nil on a list in which `v ≥ Version8` occurs
(after the versions `pre`), then the versions before `v` passed, leaving a
world `w1`; the registry has a root `M` for `v`; and either the store answered
`true` for `M` in `w1`, or it answered `false`, the catalogue has an entry, and
`LoadBundle` ran on the bytes of the selected source and returned the single
root `M` with no error (the decoder's header has the root list `[M]`).  So
nil is never returned after a load whose root differs from `M`. -/
theorem LoadBundles_success {σ : Type} (E : Env σ) (w wf : World σ)
    (pre post : List Version) (v : Version)
    (hok : LoadBundles E w (pre ++ v :: post) = (wf, none)) (hv : Version8 ≤ v) :
    ∃ w1 M, LoadBundles E w pre = (w1, none) ∧ E.GetManifest v = some M ∧
      (E.Has w1.store M = .ok true ∨
        (E.Has w1.store M = .ok false ∧
          ∃ bd src bytes s2 hdr, E.BuiltinActorReleases v = some bd ∧
            selectSource E v bd = some src ∧ src.read E = .ok bytes ∧
            E.LoadCar w1.store bytes = (s2, .ok hdr) ∧ hdr.Roots = [M] ∧
            LoadBundle E ⟨w1.store, w1.trace ++ [.getManifest v, .has M, .releases v]
                ++ src.lookups v⟩ bytes
              = (⟨s2, w1.trace ++ [.getManifest v, .has M, .releases v] ++ src.lookups v
                    ++ [.loadCar bytes]⟩, M, none))) := by
  obtain ⟨w1, w2, hpre, hbody, _⟩ := LoadBundles_nil_split E w wf pre post v hok
  obtain ⟨M, hM, h⟩ := loadVersion_success E w1 w2 v hv hbody
  refine ⟨w1, M, hpre, hM, ?_⟩
  rcases h with ⟨hHas, _⟩ | ⟨hHas, bd, src, bytes, s2, hdr, hbd, hsel, hr, hd, hc, _⟩
  · exact Or.inl hHas
  · exact Or.inr ⟨hHas, bd, src, bytes, s2, hdr, hbd, hsel, hr, hd, hc,
      LoadBundle_one E _ bytes s2 hdr M hd hc⟩

/-- C8 on the concrete environment: `[7, 8, 9]` succeeds from the empty store,
so version 9, reached after `[7, 8]`, has a registered root that was either in
the store or the single root of the archive loaded for it. -/
theorem LoadBundles_success_witness :
    ∃ w1 M, LoadBundles (Demo.env "" "" "/good8" none) Demo.w0 [7, 8] = (w1, none) ∧
      (Demo.env "" "" "/good8" none).GetManifest 9 = some M ∧
      ((Demo.env "" "" "/good8" none).Has w1.store M = .ok true ∨
        ((Demo.env "" "" "/good8" none).Has w1.store M = .ok false ∧
          ∃ bd src bytes s2 hdr,
            (Demo.env "" "" "/good8" none).BuiltinActorReleases 9 = some bd ∧
            selectSource (Demo.env "" "" "/good8" none) 9 bd = some src ∧
            src.read (Demo.env "" "" "/good8" none) = .ok bytes ∧
            (Demo.env "" "" "/good8" none).LoadCar w1.store bytes = (s2, .ok hdr) ∧
            hdr.Roots = [M] ∧
            LoadBundle (Demo.env "" "" "/good8" none)
                ⟨w1.store, w1.trace ++ [.getManifest 9, .has M, .releases 9]
                  ++ src.lookups 9⟩ bytes
              = (⟨s2, w1.trace ++ [.getManifest 9, .has M, .releases 9] ++ src.lookups 9
                    ++ [.loadCar bytes]⟩, M, none))) :=
  LoadBundles_success (Demo.env "" "" "/good8" none) Demo.w0
    ⟨[Demo.R8, Demo.R9], [.getManifest 8, .has Demo.R8, .releases 8, .getenv (envvar 8),
      .openFile "/good8", .loadCar [8], .getManifest 9, .has Demo.R9, .releases 9,
      .getenv (envvar 9), .embedded 9, .loadCar [9]]⟩
    [7, 8] [] 9 rfl (by decide)

/-! ## Idempotence -/

/-- After a successful body for `v ≥ Version8` the store has the root of `v`,
and it keeps every key it had. -/
theorem loadVersion_store {σ : Type} (E : Env σ) (hadd : DecoderOnlyAdds E)
    (hroot : DecoderWritesRoot E) (w1 w2 : World σ) (v : Version)
    (h : loadVersion E w1 v = (w2, none)) :
    (∀ c, E.Has w1.store c = .ok true → E.Has w2.store c = .ok true) ∧
    (Version8 ≤ v → ∃ M, E.GetManifest v = some M ∧ E.Has w2.store M = .ok true) := by
  by_cases hv : Version8 ≤ v
  · obtain ⟨M, hM, hcase⟩ := loadVersion_success E w1 w2 v hv h
    rcases hcase with ⟨hHas, rfl⟩ | ⟨_, bd, src, bytes, s2, hdr, _, _, _, hd, hc, rfl⟩
    · exact ⟨fun c hc => hc, fun _ => ⟨M, hM, hHas⟩⟩
    · have hs : s2 = (E.LoadCar w1.store bytes).1 := by rw [hd]
      have h2 : (E.LoadCar w1.store bytes).2 = .ok hdr := by rw [hd]
      refine ⟨fun c hc => ?_, fun _ => ⟨M, hM, ?_⟩⟩
      · show E.Has s2 c = .ok true
        rw [hs]; exact hadd _ _ _ hc
      · show E.Has s2 M = .ok true
        rw [hs]; exact hroot _ _ hdr M h2 hc
  · rw [loadVersion_below E w1 v (not_le.mp hv)] at h
    obtain rfl := (Prod.mk.inj h).1
    exact ⟨fun c hc => hc, fun h8 => absurd h8 hv⟩

theorem LoadBundles_store_mono {σ : Type} (E : Env σ) (hadd : DecoderOnlyAdds E)
    (hroot : DecoderWritesRoot E) (vs : List Version) (w w1 : World σ)
    (h : LoadBundles E w vs = (w1, none)) (c : Cid) (hc : E.Has w.store c = .ok true) :
    E.Has w1.store c = .ok true := by
  induction vs generalizing w with
  | nil =>
    obtain rfl : w = w1 := (Prod.mk.inj h).1
    exact hc
  | cons v vs ih =>
    rw [LoadBundles_cons] at h
    rcases hbody : loadVersion E w v with ⟨w2, _ | err⟩
    · rw [hbody, resume_none] at h
      exact ih w2 h ((loadVersion_store E hadd hroot w w2 v hbody).1 c hc)
    · rw [hbody, resume_some] at h; simp at h

/-- After a successful run the store has the root of every requested version
from `Version8` on. -/
theorem LoadBundles_present_after {σ : Type} (E : Env σ) (hadd : DecoderOnlyAdds E)
    (hroot : DecoderWritesRoot E) (vs : List Version) (w w1 : World σ)
    (h : LoadBundles E w vs = (w1, none)) :
    ∀ v ∈ vs, Version8 ≤ v → ∃ M, E.GetManifest v = some M ∧ E.Has w1.store M = .ok true := by
  induction vs generalizing w with
  | nil => intro v hv; simp at hv
  | cons a vs ih =>
    rw [LoadBundles_cons] at h
    rcases hbody : loadVersion E w a with ⟨w2, _ | err⟩
    · rw [hbody, resume_none] at h
      intro v hv h8
      rcases List.mem_cons.mp hv with rfl | hv
      · obtain ⟨M, hM, hHas⟩ := (loadVersion_store E hadd hroot w w2 v hbody).2 h8
        exact ⟨M, hM, LoadBundles_store_mono E hadd hroot vs w2 w1 h M hHas⟩
      · exact ih w2 h v hv h8
    · rw [hbody, resume_some] at h; simp at h

/-- When the store has the root of every requested version from `Version8` on,
the run succeeds with registry lookups and store queries only. -/
theorem LoadBundles_all_present {σ : Type} (E : Env σ) (vs : List Version) (w : World σ)
    (h : ∀ v ∈ vs, Version8 ≤ v → ∃ M, E.GetManifest v = some M ∧ E.Has w.store M = .ok true) :
    ∃ t, LoadBundles E w vs = (⟨w.store, w.trace ++ t⟩, none) ∧
      ∀ e ∈ t, e.isSourceCall = false := by
  induction vs generalizing w with
  | nil => exact ⟨[], by simp [LoadBundles], by simp⟩
  | cons v vs ih =>
    by_cases hv : Version8 ≤ v
    · obtain ⟨M, hM, hHas⟩ := h v (List.mem_cons_self v vs) hv
      obtain ⟨t, ht, hq⟩ := ih ⟨w.store, w.trace ++ [.getManifest v, .has M]⟩
        (fun a ha h8 => h a (List.mem_cons_of_mem v ha) h8)
      refine ⟨[.getManifest v, .has M] ++ t, ?_, ?_⟩
      · rw [LoadBundles_cons, loadVersion_present E w v M hv hM hHas, resume_none, ht]
        simp
      · intro e he
        rcases List.mem_append.mp he with he | he
        · simp at he
          rcases he with rfl | rfl <;> rfl
        · exact hq e he
    · obtain ⟨t, ht, hq⟩ := ih w (fun a ha h8 => h a (List.mem_cons_of_mem v ha) h8)
      exact ⟨t, by rw [LoadBundles_cons, loadVersion_below E w v (not_le.mp hv), resume_none, ht],
        hq⟩

/-- C5. Assume the decoder only adds blocks and writes the root block of a
single-root archive (the decoder and `Has` being functions of the store).  If
`LoadBundles` on `vs` returns nil leaving the world `w1`, then `LoadBundles` on
`vs` started in `w1` returns nil again with the same store, and the calls it
makes are registry lookups and store queries only: no catalogue, override,
file, embedded or decoder call, every version from `Version8` on being passed
by the already-present check. -/
theorem LoadBundles_idempotent {σ : Type} (E : Env σ) (w w1 : World σ) (vs : List Version)
    (hadd : DecoderOnlyAdds E) (hroot : DecoderWritesRoot E)
    (hfirst : LoadBundles E w vs = (w1, none)) :
    ∃ t, LoadBundles E w1 vs = (⟨w1.store, w1.trace ++ t⟩, none) ∧
      (∀ e ∈ t, e.isSourceCall = false) ∧
      ∀ v ∈ vs, Version8 ≤ v →
        ∃ M, E.GetManifest v = some M ∧ E.Has w1.store M = .ok true := by
  have hp := LoadBundles_present_after E hadd hroot vs w w1 hfirst
  obtain ⟨t, ht, hq⟩ := LoadBundles_all_present E vs w1 hp
  exact ⟨t, ht, hq, hp⟩

theorem Demo.cidOf_ne_R11 (n : Nat) : Demo.cidOf n ≠ Demo.R11 := by
  unfold Demo.cidOf
  split <;> decide

theorem Demo.env_onlyAdds (o8 o12 p8 : String) (e8 : Option Bytes) :
    DecoderOnlyAdds (Demo.env o8 o12 p8 e8) := by
  intro s r c h
  simp only [Demo.env] at h ⊢
  by_cases hc : c = Demo.R11
  · simp [hc] at h
  · simp only [hc, if_false, Except.ok.injEq, decide_eq_true_eq] at h ⊢
    unfold Demo.decode
    split_ifs
    · exact h
    · exact List.mem_append_left _ h

theorem Demo.env_writesRoot (o8 o12 p8 : String) (e8 : Option Bytes) :
    DecoderWritesRoot (Demo.env o8 o12 p8 e8) := by
  intro s r hdr c h hroots
  simp only [Demo.env] at h ⊢
  by_cases hbad : 255 ∈ r
  · simp [Demo.decode, hbad] at h
  · simp only [Demo.decode, hbad, if_false, Except.ok.injEq] at h ⊢
    subst h
    simp only at hroots
    have hmem : c ∈ r.map Demo.cidOf := by rw [hroots]; simp
    have hne : c ≠ Demo.R11 := by
      obtain ⟨n, _, rfl⟩ := List.mem_map.mp hmem
      exact Demo.cidOf_ne_R11 n
    simp only [hne, if_false, Except.ok.injEq, decide_eq_true_eq]
    exact List.mem_append_right _ hmem

/-- C5 on the concrete environment: after `[7, 8, 9]` has succeeded from the
empty store, running it again makes four calls, a registry lookup and a store
query for each of 8 and 9, and leaves the store as it is. -/
theorem LoadBundles_idempotent_witness :
    ∃ t, LoadBundles (Demo.env "" "" "/good8" none)
          ⟨[Demo.R8, Demo.R9], [.getManifest 8, .has Demo.R8, .releases 8,
            .getenv (envvar 8), .openFile "/good8", .loadCar [8], .getManifest 9,
            .has Demo.R9, .releases 9, .getenv (envvar 9), .embedded 9, .loadCar [9]]⟩
          [7, 8, 9]
        = (⟨[Demo.R8, Demo.R9], [.getManifest 8, .has Demo.R8, .releases 8,
            .getenv (envvar 8), .openFile "/good8", .loadCar [8], .getManifest 9,
            .has Demo.R9, .releases 9, .getenv (envvar 9), .embedded 9, .loadCar [9]] ++ t⟩,
          none) ∧
      (∀ e ∈ t, e.isSourceCall = false) ∧
      ∀ v ∈ [7, 8, 9], Version8 ≤ v →
        ∃ M, (Demo.env "" "" "/good8" none).GetManifest v = some M ∧
          (Demo.env "" "" "/good8" none).Has [Demo.R8, Demo.R9] M = .ok true :=
  LoadBundles_idempotent (Demo.env "" "" "/good8" none) Demo.w0
    ⟨[Demo.R8, Demo.R9], [.getManifest 8, .has Demo.R8, .releases 8, .getenv (envvar 8),
      .openFile "/good8", .loadCar [8], .getManifest 9, .has Demo.R9, .releases 9,
      .getenv (envvar 9), .embedded 9, .loadCar [9]]⟩
    [7, 8, 9] (Demo.env_onlyAdds "" "" "/good8" none) (Demo.env_writesRoot "" "" "/good8" none)
    rfl

end Bundle
